import Mathlib

/-!
Verification of the Clerk-Calculator core (components/Calculator.tsx).

The date normalizer, date parser, duration engine, row store, snapshot
store and session controller of the calculator component are embedded as
executable Lean definitions.  Strings are modelled through their character
lists; JavaScript Date values are modelled as proleptic-Gregorian calendar
dates, with getTime rendered as local-midnight timestamps over a fixed
UTC offset (offsets cancel in every difference the code takes).
-/

namespace ClerkCalc

/-- The whitespace characters stripped by the JavaScript trim used in the
component (ASCII whitespace; exotic Unicode space code points are outside
the model). -/
def jsWsChar (c : Char) : Bool :=
  c = ' ' || c = '\t' || c = '\n' || c = '\r' || c = '\x0b' || c = '\x0c'

/-- List-level rendering of the trim applied to user text: drop leading and
trailing whitespace. -/
def trimL (cs : List Char) : List Char :=
  ((cs.dropWhile jsWsChar).reverse.dropWhile jsWsChar).reverse

/-- String facade for trimL, modelling the trim calls in the source. -/
def jsTrim (s : String) : String :=
  ⟨trimL s.data⟩

/-- The padStart(2, "0") call of the source: left-pad with zeros to
length 2. -/
def padStart2 (cs : List Char) : List Char :=
  List.replicate (2 - cs.length) '0' ++ cs

/-- Matcher for the anchored regular expression
(d12)(sep)(d12)(sep)(d24) used by the normalizer, where d12 is one or two
digits, d24 is two to four digits and sep is a slash or a dash.  Because
every digit run is delimited by a non-digit separator or the end of the
input, the greedy anchored regex matches exactly when the maximal digit
runs have the capped lengths, which is what this function tests. -/
def matchSlashed (cs : List Char) : Option (List Char × List Char × List Char) :=
  let mm := cs.takeWhile Char.isDigit
  let rest1 := cs.dropWhile Char.isDigit
  if mm.length < 1 ∨ 2 < mm.length then none
  else
    match rest1 with
    | [] => none
    | s1 :: rest2 =>
      if ¬(s1 = '/' ∨ s1 = '-') then none
      else
        let dd := rest2.takeWhile Char.isDigit
        let rest3 := rest2.dropWhile Char.isDigit
        if dd.length < 1 ∨ 2 < dd.length then none
        else
          match rest3 with
          | [] => none
          | s2 :: rest4 =>
            if ¬(s2 = '/' ∨ s2 = '-') then none
            else
              let yy := rest4.takeWhile Char.isDigit
              let rest5 := rest4.dropWhile Char.isDigit
              if yy.length < 2 ∨ 4 < yy.length ∨ rest5 ≠ [] then none
              else some (mm, dd, yy)

/-- List-level body of normalizeShortDateDisplay. -/
def normalizeL (value : List Char) : List Char :=
  let trimmed := trimL value
  if trimmed = [] then []
  else
    let digitsOnly := trimmed.filter Char.isDigit
    if digitsOnly.length = 6 then
      digitsOnly.take 2 ++ '/' :: (digitsOnly.drop 2).take 2
        ++ '/' :: (digitsOnly.drop 4).take 2
    else if digitsOnly.length = 8 then
      digitsOnly.take 2 ++ '/' :: (digitsOnly.drop 2).take 2
        ++ '/' :: (digitsOnly.drop 6).take 2
    else
      match matchSlashed trimmed with
      | some (mm, dd, yy) =>
        let mmNorm := padStart2 mm
        let ddNorm := padStart2 dd
        let yy2 := if yy.length = 4 then yy.drop 2 else yy
        let yyNorm := padStart2 yy2
        mmNorm ++ '/' :: ddNorm ++ '/' :: yyNorm
      | none => trimmed

/-- Normalize whatever the user typed into MM/DD/YY when possible
(normalizeShortDateDisplay in the source). -/
def normalizeShortDateDisplay (value : String) : String :=
  ⟨normalizeL value.data⟩

/-! ## Calendar dates and the date parser -/

/-- A calendar date as the year/month/day triple a JavaScript Date reports
through getFullYear, getMonth + 1 and getDate. -/
structure CalDate where
  year : Nat
  month : Nat
  day : Nat
deriving DecidableEq, Repr

/-- Gregorian leap-year rule, as used by the JavaScript Date object. -/
def isLeapYear (y : Nat) : Bool :=
  y % 4 = 0 && (y % 100 ≠ 0 || y % 400 = 0)

/-- Length of a month of the Gregorian calendar. -/
def daysInMonth (y m : Nat) : Nat :=
  if m = 2 then (if isLeapYear y then 29 else 28)
  else if m = 4 || m = 6 || m = 9 || m = 11 then 30
  else 31

/-- The date produced by the JavaScript constructor new Date(y, m - 1, d)
for m between 1 and 12 and d between 1 and 31: a day count exceeding the
month's length rolls over into the following month. -/
def mkJsDate (y m d : Nat) : CalDate :=
  let dim := daysInMonth y m
  if d ≤ dim then ⟨y, m, d⟩
  else if m = 12 then ⟨y + 1, 1, d - dim⟩
  else ⟨y, m + 1, d - dim⟩

/-- Numeric value of a decimal digit character. -/
def digitVal (c : Char) : Nat :=
  c.toNat - 48

/-- Matcher for the canonical-form regular expression
(\d\d)/(\d\d)/(\d\d) anchored on both sides, returning the three numeric
captures the way Number reads them. -/
def matchCanonical : List Char → Option (Nat × Nat × Nat)
  | [a, b, '/', c, d, '/', e, f] =>
    if a.isDigit && b.isDigit && c.isDigit && d.isDigit && e.isDigit && f.isDigit then
      some (digitVal a * 10 + digitVal b, digitVal c * 10 + digitVal d,
            digitVal e * 10 + digitVal f)
    else none
  | _ => none

/-- List-level body of parseShortDate.  The source builds
new Date(2000 + yy, month - 1, day) and rejects the result when the
reconstructed year, month or day differ from the parsed numbers, which
filters out rolled-over dates such as 02/31/25. -/
def parseShortDateL (input : List Char) : Option CalDate :=
  if input = [] then none
  else
    let normalized := normalizeL input
    match matchCanonical normalized with
    | none => none
    | some (month, day, yy) =>
      if month = 0 || day = 0 || 12 < month || 31 < day then none
      else
        let fullYear := 2000 + yy
        let date := mkJsDate fullYear month day
        if date.year ≠ fullYear || date.month ≠ month || date.day ≠ day then none
        else some date

/-- Parse whatever is in the field into a date, using the same
normalization rules (parseShortDate in the source). -/
def parseShortDate (input : String) : Option CalDate :=
  parseShortDateL input.data

/-! ## Duration engine -/

/-- Leap years of the proleptic Gregorian calendar before year y, counting
year 0 as a leap year. -/
def leapsBefore (y : Nat) : Nat :=
  (y + 3) / 4 + (y + 399) / 400 - (y + 99) / 100

/-- Days of the calendar preceding January 1 of year y, counted from the
fixed origin 0000-01-01. -/
def daysBeforeYear (y : Nat) : Nat :=
  365 * y + leapsBefore y

/-- Days of year y preceding the first day of month m. -/
def daysBeforeMonth (y m : Nat) : Nat :=
  let feb := if isLeapYear y then 29 else 28
  match m with
  | 1 => 0
  | 2 => 31
  | 3 => 31 + feb
  | 4 => 62 + feb
  | 5 => 92 + feb
  | 6 => 123 + feb
  | 7 => 153 + feb
  | 8 => 184 + feb
  | 9 => 215 + feb
  | 10 => 245 + feb
  | 11 => 276 + feb
  | 12 => 306 + feb
  | _ => 337 + feb

/-- Position of a calendar date on the day line. -/
def toDayNumber (d : CalDate) : Nat :=
  daysBeforeYear d.year + daysBeforeMonth d.year d.month + (d.day - 1)

/-- The getTime value of a date constructed at local midnight: day number
times milliseconds per day.  A fixed timezone offset would shift every
value equally and cancels in the differences the component computes. -/
def getTime (d : CalDate) : Int :=
  (toDayNumber d : Int) * (1000 * 60 * 60 * 24)

/-- Counting mode of the calculator. -/
inductive CalcMode where
  | STATE_JAIL
  | TCJ_TDCJ
deriving DecidableEq, Repr

/-- A date-range entry of the row store. -/
structure TimeRangeRow where
  id : Int
  start : String
  stop : String
deriving DecidableEq, Repr

/-- The diffMs/dayMs/baseDays chain of getDurationDays: absolute
millisecond distance, floor-divided by milliseconds per day. -/
def baseDaysOf (s e : CalDate) : Int :=
  (((getTime e - getTime s).natAbs / (1000 * 60 * 60 * 24) : Nat) : Int)

/-- Duration in whole days for one row under a counting mode
(getDurationDays in the source).  The stop field renders the row's end
property. -/
def getDurationDays (row : TimeRangeRow) (mode : CalcMode) : Int :=
  if row.start = "" ∨ row.stop = "" then 0
  else
    match parseShortDate row.start, parseShortDate row.stop with
    | some s, some e =>
      let baseDays := baseDaysOf s e
      match mode with
      | CalcMode.STATE_JAIL => if 0 < baseDays then baseDays else 0
      | CalcMode.TCJ_TDCJ =>
        let withExtra := baseDays + 1
        if 0 < withExtra then withExtra else 0
    | _, _ => 0

/-! ## Day formatting -/

/-- Decimal digits of a natural number, most significant first; the fuel
argument bounds the recursion depth. -/
def natDigitsAux : Nat → Nat → List Char
  | 0, _ => []
  | fuel + 1, n =>
    if n < 10 then [Char.ofNat (48 + n)]
    else natDigitsAux fuel (n / 10) ++ [Char.ofNat (48 + n % 10)]

/-- Decimal digits of a natural number, most significant first. -/
def natDigits (n : Nat) : List Char :=
  natDigitsAux (n + 1) n

/-- Decimal rendering of a natural number. -/
def natStr (n : Nat) : String :=
  ⟨natDigits n⟩

/-- Grouping step of toLocaleString, working on a reversed digit list:
insert a comma after every third digit. -/
def commaGroupRev : List Char → List Char
  | a :: b :: c :: d :: rest => a :: b :: c :: ',' :: commaGroupRev (d :: rest)
  | l => l

/-- The en-US thousands grouping applied by toLocaleString to a whole
number. -/
def commaGroup (ds : List Char) : List Char :=
  (commaGroupRev ds.reverse).reverse

/-- Pluralized, comma-grouped day-count label (formatDays in the
source). -/
def formatDays (days : Int) : String :=
  if days ≤ 0 then "0 days"
  else
    let label := if days = 1 then "day" else "days"
    let withCommas : String := ⟨commaGroup (natDigits days.toNat)⟩
    withCommas ++ " " ++ label

/-! ## Row store operations -/

/-- The two editable fields of a row. -/
inductive RowField where
  | start
  | stop
deriving DecidableEq, Repr

/-- Write one field of a row. -/
def setField (row : TimeRangeRow) (field : RowField) (value : String) : TimeRangeRow :=
  match field with
  | RowField.start => { row with start := value }
  | RowField.stop => { row with stop := value }

/-- Read one field of a row. -/
def getField (row : TimeRangeRow) (field : RowField) : String :=
  match field with
  | RowField.start => row.start
  | RowField.stop => row.stop

/-- updateRow of the source: replace the field on the row with the
matching id. -/
def updateRow (rows : List TimeRangeRow) (id : Int) (field : RowField)
    (rawValue : String) : List TimeRangeRow :=
  rows.map (fun row => if row.id = id then setField row field rawValue else row)

/-- normalizeRowField of the source: normalize the stored text of the
field on the row with the matching id. -/
def normalizeRowField (rows : List TimeRangeRow) (id : Int)
    (field : RowField) : List TimeRangeRow :=
  rows.map (fun row =>
    if row.id ≠ id then row
    else setField row field (normalizeShortDateDisplay (getField row field)))

/-- addRow of the source: append a blank row; the caller supplies the
freshly generated id standing for Date.now() + Math.random(). -/
def addRow (rows : List TimeRangeRow) (freshId : Int) : List TimeRangeRow :=
  rows ++ [⟨freshId, "", ""⟩]

/-- removeLastRow of the source: drop the final row, except that a store
holding at most one row keeps it and clears its fields. -/
def removeLastRow (rows : List TimeRangeRow) : List TimeRangeRow :=
  if rows.length ≤ 1 then
    rows.map (fun row => { row with start := "", stop := "" })
  else rows.dropLast

/-! ## Session state and the snapshot store -/

/-- A saved snapshot (SavedCalculation in the source). -/
structure SavedCalculation where
  label : String
  rows : List TimeRangeRow
  mode : CalcMode
  createdAt : Int
deriving DecidableEq, Repr

/-- The live snapshot retained in liveStateRef when the user first
navigates away from the live calculation. -/
structure LiveSnapshot where
  rows : List TimeRangeRow
  mode : CalcMode
  identifier : String
deriving DecidableEq, Repr

/-- The component state of BacktimeCard that the handlers read and
write. -/
structure AppState where
  rows : List TimeRangeRow
  mode : CalcMode
  copied : Bool
  identifier : String
  savedCalculations : List SavedCalculation
  saveError : Option String
  saveBanner : Option String
  savedOpen : Bool
  activeSavedId : Option String
  liveState : Option LiveSnapshot
deriving DecidableEq, Repr

/-- Combined total across the rows under the active mode (the totalDays
reduce of the source). -/
def totalDays (rows : List TimeRangeRow) (mode : CalcMode) : Int :=
  rows.foldl (fun sum row => sum + getDurationDays row mode) 0

/-- The per-row pieces of the combined expression: one bracketed range per
row whose two endpoints parse. -/
def rangeParts (rows : List TimeRangeRow) : List String :=
  rows.filterMap (fun row =>
    match parseShortDate row.start, parseShortDate row.stop with
    | some _, some _ =>
      some ("(" ++ normalizeShortDateDisplay row.start ++ " - "
        ++ normalizeShortDateDisplay row.stop ++ ")")
    | _, _ => none)

/-- The combined expression shown under the total: the joined range pieces
followed by the formatted total, or the empty string when no row
parses. -/
def combinedExpression (rows : List TimeRangeRow) (mode : CalcMode) : String :=
  let parts := rangeParts rows
  if parts ≠ [] then
    String.intercalate " + " parts ++ " = " ++ formatDays (totalDays rows mode)
  else ""

/-- The per-row deep copy taken on save and select: the object spread
builds a fresh record with the same three fields. -/
def copyRow (r : TimeRangeRow) : TimeRangeRow :=
  ⟨r.id, r.start, r.stop⟩

/-- The inline message set when a save finds nothing to store. -/
def emptyInputMsg : String :=
  "You need at least one valid date range to save."

/-- The inline message set when a save hits an already-used label. -/
def duplicateMsg : String :=
  "That identifier is already used. Please choose another."

/-- ASCII rendering of the toLowerCase call of the duplicate check;
non-ASCII letters are outside the model. -/
def jsToLowerCase (s : String) : String :=
  ⟨s.data.map Char.toLower⟩

/-- The generated label Calculation n. -/
def calcLabel (n : Nat) : String :=
  "Calculation " ++ natStr n

/-- Fuel-bounded body of the while loop that skips used Calculation n
labels. -/
def findCalcNAux (labels : List String) : Nat → Nat → Nat
  | 0, n => n
  | fuel + 1, n =>
    if calcLabel n ∈ labels then findCalcNAux labels fuel (n + 1) else n

/-- The n the source's while loop stops at when auto-generating a label:
the least n from 1 on whose label Calculation n is not an existing label.
A list of length L cannot contain all of the L + 1 candidate labels, so
fuel L + 1 is enough for the loop to terminate on its own. -/
def findCalcN (labels : List String) : Nat :=
  findCalcNAux labels (labels.length + 1) 1

/-- The label a save will use: the trimmed identifier, or a generated
Calculation n when the identifier is blank. -/
def effectiveLabel (st : AppState) : String :=
  let trimmed := jsTrim st.identifier
  if trimmed = "" then
    calcLabel (findCalcN (st.savedCalculations.map (fun c => c.label)))
  else trimmed

/-- The case-insensitive duplicate test of the save path. -/
def labelTakenCI (saved : List SavedCalculation) (label : String) : Bool :=
  saved.any (fun c => jsToLowerCase c.label = jsToLowerCase label)

/-- The transient banner text shown after a successful save. -/
def saveBannerMsg (label : String) : String :=
  "The calculation was saved as \"" ++ label ++ "\""

/-- handleSaveCurrent of the source.  Each run first clears the inline
error; the state returned reflects the error or success branch taken, with
now standing for the Date.now() timestamp of the run. -/
def handleSaveCurrent (st : AppState) (now : Int) : AppState :=
  if combinedExpression st.rows st.mode = "" ∨ totalDays st.rows st.mode ≤ 0 then
    { st with saveError := some emptyInputMsg }
  else
    let label := effectiveLabel st
    if labelTakenCI st.savedCalculations label then
      { st with saveError := some duplicateMsg }
    else
      { st with
        savedCalculations := st.savedCalculations
          ++ [⟨label, st.rows.map copyRow, st.mode, now⟩],
        saveError := none,
        saveBanner := some (saveBannerMsg label),
        savedOpen := true }

/-- handleSelectSaved of the source: null returns to the live calculation,
restoring the retained live snapshot when one exists; a label looks up the
snapshot, captures the live state on the first navigation away, and
installs deep copies of the snapshot's rows. -/
def handleSelectSaved (st : AppState) (id : Option String) : AppState :=
  match id with
  | none =>
    let st1 := { st with activeSavedId := none }
    match st1.liveState with
    | some live =>
      { st1 with rows := live.rows, mode := live.mode, identifier := live.identifier }
    | none => st1
  | some l =>
    match st.savedCalculations.find? (fun c => c.label == l) with
    | none => st
    | some found =>
      let st1 :=
        if st.activeSavedId = none then
          { st with liveState := some ⟨st.rows, st.mode, st.identifier⟩ }
        else st
      { st1 with
        activeSavedId := some l,
        rows := found.rows.map copyRow,
        mode := found.mode,
        identifier := found.label }

/-- handleClearAll of the source: one fresh blank row, default mode,
everything else cleared; the durable-storage removal is outside the state
model. -/
def handleClearAll (st : AppState) (freshId : Int) : AppState :=
  { st with
    rows := [⟨freshId, "", ""⟩],
    mode := CalcMode.STATE_JAIL,
    copied := false,
    identifier := "",
    saveError := none,
    saveBanner := none,
    activeSavedId := none,
    liveState := none }

/-- handleDeleteSaved of the source: filter out the snapshots carrying the
label; when the deleted label was the active selection, fall back to the
retained live snapshot, or to a full clear when none was ever captured. -/
def handleDeleteSaved (st : AppState) (id : String) (freshId : Int) : AppState :=
  let st1 :=
    { st with
      savedCalculations := st.savedCalculations.filter (fun c => !(c.label == id)) }
  if st.activeSavedId = some id then
    let st2 := { st1 with activeSavedId := none }
    match st2.liveState with
    | some live =>
      { st2 with rows := live.rows, mode := live.mode, identifier := live.identifier }
    | none => handleClearAll st2 freshId
  else st1

/-! ## Durable-storage loader

The load effect parses the stored JSON and installs each field only after
its own shape check, so stored values are modelled as JSON trees and the
loaded rows keep JSON-valued fields exactly where the source performs no
type check on them. -/

/-- A JSON value as JSON.parse produces it; null also stands for the
undefined read of a missing property. -/
inductive JVal where
  | null
  | bool (b : Bool)
  | num (n : Int)
  | str (s : String)
  | arr (items : List JVal)
  | obj (fields : List (String × JVal))
deriving Repr

/-- Property read on a parsed value: the field of an object when present,
otherwise the undefined value. -/
def jGet (v : JVal) (key : String) : JVal :=
  match v with
  | JVal.obj fields =>
    match fields.find? (fun f => f.fst == key) with
    | some f => f.snd
    | none => JVal.null
  | _ => JVal.null

/-- The nullish-coalescing operator: fall back only on null/undefined. -/
def jsCoalesce (v fallback : JVal) : JVal :=
  match v with
  | JVal.null => fallback
  | other => other

/-- Decimal rendering of an integer the way String shows a whole
number. -/
def intStr (n : Int) : String :=
  if n < 0 then "-" ++ natStr n.natAbs else natStr n.toNat

mutual

/-- The String(x) coercion of JavaScript on parsed JSON values. -/
def jsToString : JVal → String
  | JVal.null => "null"
  | JVal.bool b => if b then "true" else "false"
  | JVal.num n => intStr n
  | JVal.str s => s
  | JVal.arr items => jsToStringItems items
  | JVal.obj _ => "[object Object]"

/-- Array toString: elements coerced and joined with commas. -/
def jsToStringItems : List JVal → String
  | [] => ""
  | [x] => jsToStringItem x
  | x :: rest => jsToStringItem x ++ "," ++ jsToStringItems rest

/-- Element coercion inside an array join: null renders as empty. -/
def jsToStringItem : JVal → String
  | JVal.null => ""
  | JVal.bool b => if b then "true" else "false"
  | JVal.num n => intStr n
  | JVal.str s => s
  | JVal.arr items => jsToStringItems items
  | JVal.obj _ => "[object Object]"

end

/-- A row as the loader leaves it: the source fills absent fields with
defaults through the nullish coalescing operator but performs no type
check, so each field keeps its stored JSON value. -/
structure JRow where
  id : JVal
  start : JVal
  stop : JVal
deriving Repr

/-- A saved calculation as the loader rebuilds it. -/
structure LoadedSaved where
  label : String
  rows : List JVal
  mode : CalcMode
  createdAt : Int
deriving Repr

/-- The four state fields the load effect writes. -/
structure LoadedState where
  rows : List JRow
  mode : CalcMode
  identifier : String
  savedCalculations : List LoadedSaved
deriving Repr

/-- The safeRows element mapping of the loader; freshIds i stands for the
Date.now() + Math.random() id generated for the row at index i.  On a
null array element the source's row.id access throws a TypeError, so the
callback never produces a row: that escape is rendered as none.  On any
other value, property access yields the undefined value without throwing
and the nullish-coalescing defaults apply field by field. -/
def safeRow (freshIds : Nat → Int) (i : Nat) (v : JVal) : Option JRow :=
  match v with
  | JVal.null => none
  | v =>
    some
      { id := jsCoalesce (jGet v "id") (JVal.num (freshIds i)),
        start := jsCoalesce (jGet v "start") (JVal.str ""),
        stop := jsCoalesce (jGet v "end") (JVal.str "") }

/-- The rows map of the loader, applied left to right the way
Array.prototype.map runs: the first throwing element aborts the whole
map, so a none from any element yields none for the list. -/
def safeRowsM (freshIds : Nat → Int) : Nat → List JVal → Option (List JRow)
  | _, [] => some []
  | i, v :: rest =>
    match safeRow freshIds i v with
    | none => none
    | some r =>
      match safeRowsM freshIds (i + 1) rest with
      | none => none
      | some rs => some (r :: rs)

/-- The safeSaved element mapping of the loader.  On a null array element
the source's c.label access throws a TypeError before String is called,
rendered as none; any other value reads as undefined fields and takes the
checked defaults. -/
def sanitizeSaved (loadTime : Int) (c : JVal) : Option LoadedSaved :=
  match c with
  | JVal.null => none
  | c =>
    some
      { label := jsToString (jsCoalesce (jGet c "label") (JVal.str "Unnamed")),
        rows :=
          match jGet c "rows" with
          | JVal.arr l => l
          | _ => [],
        mode :=
          match jGet c "mode" with
          | JVal.str s =>
            if s = "TCJ_TDCJ" then CalcMode.TCJ_TDCJ else CalcMode.STATE_JAIL
          | _ => CalcMode.STATE_JAIL,
        createdAt :=
          match jGet c "createdAt" with
          | JVal.num n => n
          | _ => loadTime }

/-- The savedCalculations map of the loader, with the same left-to-right
throw propagation as the rows map. -/
def sanitizeSavedM (loadTime : Int) : List JVal → Option (List LoadedSaved)
  | [] => some []
  | c :: rest =>
    match sanitizeSaved loadTime c with
    | none => none
    | some s =>
      match sanitizeSavedM loadTime rest with
      | none => none
      | some ss => some (s :: ss)

/-- The rows install of the load effect: the list setRows receives, or
none when the map over the stored rows throws (a null element), in which
case the surrounding catch aborts every remaining install. -/
def loadRowsStep (parsed : JVal) (initRow : JRow) (freshIds : Nat → Int) :
    Option (List JRow) :=
  match jGet parsed "rows" with
  | JVal.arr l =>
    if 0 < l.length then safeRowsM freshIds 0 l
    else some [initRow]
  | _ => some [initRow]

/-- The savedCalculations install of the load effect, or none when its
map throws on a null element. -/
def loadSavedStep (parsed : JVal) (loadTime : Int) : Option (List LoadedSaved) :=
  match jGet parsed "savedCalculations" with
  | JVal.arr l => sanitizeSavedM loadTime l
  | _ => some []

/-- The load effect.  raw = none covers both a missing storage key and a
JSON.parse throw swallowed by the try/catch; initRow is the blank row of
the initial state.  The installs run in source order inside one try: a
throw during the rows map is caught before any state was set, leaving
every field at its default, while a throw during the savedCalculations
map (the last install) leaves the fields already set and only the
snapshot list at its default.  When the whole parsed value is null or a
primitive, every top-level read yields the undefined value and every
field defaults, which coincides with the source, where null.rows throws
at the first access and the catch likewise leaves all defaults. -/
def loadState (raw : Option JVal) (initRow : JRow) (freshIds : Nat → Int)
    (loadTime : Int) : LoadedState :=
  let dflt : LoadedState := ⟨[initRow], CalcMode.STATE_JAIL, "", []⟩
  match raw with
  | none => dflt
  | some parsed =>
    match loadRowsStep parsed initRow freshIds with
    | none => dflt
    | some rows =>
      let mode :=
        match jGet parsed "mode" with
        | JVal.str s =>
          if s = "STATE_JAIL" then CalcMode.STATE_JAIL
          else if s = "TCJ_TDCJ" then CalcMode.TCJ_TDCJ
          else CalcMode.STATE_JAIL
        | _ => CalcMode.STATE_JAIL
      let identifier :=
        match jGet parsed "identifier" with
        | JVal.str s => s
        | _ => ""
      let saved :=
        match loadSavedStep parsed loadTime with
        | none => []
        | some cs => cs
      ⟨rows, mode, identifier, saved⟩

/-! ## Shared facts and sample data -/

/-- The empty string never parses. -/
theorem parseShortDate_empty : parseShortDate "" = none := rfl

/-- The base day count is a cast natural number, hence nonnegative. -/
theorem baseDaysOf_nonneg (s e : CalDate) : 0 ≤ baseDaysOf s e :=
  Int.natCast_nonneg _

/-- Every duration the engine reports is nonnegative. -/
theorem getDurationDays_nonneg (row : TimeRangeRow) (mode : CalcMode) :
    0 ≤ getDurationDays row mode := by
  unfold getDurationDays
  split
  · exact le_refl 0
  · cases hs : parseShortDate row.start with
    | none => cases he : parseShortDate row.stop <;> simp
    | some s =>
      cases he : parseShortDate row.stop with
      | none => simp
      | some e =>
        have hb := baseDaysOf_nonneg s e
        cases mode <;> dsimp only <;> split <;> omega

/-- A sample row holding a valid nine-day range. -/
def sampleRow : TimeRangeRow := ⟨1, "01/01/25", "01/10/25"⟩

/-- A sample live session: one valid row, a named identifier, nothing
saved yet. -/
def sampleState : AppState :=
  { rows := [sampleRow], mode := CalcMode.STATE_JAIL, copied := false,
    identifier := "Case A", savedCalculations := [], saveError := none,
    saveBanner := none, savedOpen := false, activeSavedId := none,
    liveState := none }

/-! ## Claim C1 -/

/-- C1: for every row whose endpoints both parse, the TCJ/TDCJ duration is
the state-jail duration plus one and the state-jail duration is
nonnegative; when either endpoint fails to parse both modes return 0. -/
theorem claim_C1 (row : TimeRangeRow) :
    ((parseShortDate row.start).isSome = true →
      (parseShortDate row.stop).isSome = true →
      getDurationDays row CalcMode.TCJ_TDCJ
        = getDurationDays row CalcMode.STATE_JAIL + 1 ∧
      0 ≤ getDurationDays row CalcMode.STATE_JAIL)
  ∧ ((parseShortDate row.start = none ∨ parseShortDate row.stop = none) →
      getDurationDays row CalcMode.STATE_JAIL = 0 ∧
      getDurationDays row CalcMode.TCJ_TDCJ = 0) := by
  constructor
  · intro hs he
    have hs1 : row.start ≠ "" := by
      intro h
      rw [h, parseShortDate_empty] at hs
      simp at hs
    have he1 : row.stop ≠ "" := by
      intro h
      rw [h, parseShortDate_empty] at he
      simp at he
    obtain ⟨s, hsv⟩ := Option.isSome_iff_exists.mp hs
    obtain ⟨e, hev⟩ := Option.isSome_iff_exists.mp he
    have hneg : ¬(row.start = "" ∨ row.stop = "") := by tauto
    have hb := baseDaysOf_nonneg s e
    simp only [getDurationDays, hneg, if_false, hsv, hev]
    constructor
    · split <;> split <;> omega
    · split <;> omega
  · intro h
    by_cases hc : row.start = "" ∨ row.stop = ""
    · simp only [getDurationDays, hc, if_true]
      exact ⟨trivial, trivial⟩
    · rcases h with h | h
      · simp only [getDurationDays, hc, if_false, h]
        exact ⟨trivial, trivial⟩
      · simp only [getDurationDays, hc, if_false, h]
        cases hs : parseShortDate row.start <;> constructor <;> trivial


/-- C1 witness: a concrete row with both endpoints parsing, and one with a
failing endpoint. -/
theorem claim_C1_witness :
    (parseShortDate "01/01/25").isSome = true ∧
    (parseShortDate "01/02/25").isSome = true ∧
    getDurationDays ⟨1, "01/01/25", "01/02/25"⟩ CalcMode.TCJ_TDCJ
      = getDurationDays ⟨1, "01/01/25", "01/02/25"⟩ CalcMode.STATE_JAIL + 1 ∧
    parseShortDate "xx" = none ∧
    getDurationDays ⟨7, "xx", "01/02/25"⟩ CalcMode.STATE_JAIL = 0 :=
  ⟨by decide, by decide,
    ((claim_C1 ⟨1, "01/01/25", "01/02/25"⟩).1 (by decide) (by decide)).1,
    by decide,
    ((claim_C1 ⟨7, "xx", "01/02/25"⟩).2 (Or.inl (by decide))).1⟩

/-! ## Claim C5 -/

/-- C5: the spec scenario: start text 010125 and end text 02/15/2025
normalize to 01/01/25 and 02/15/25, yield 45 days under state jail and 46
under TCJ/TDCJ, and 45 formats as 45 days. -/
theorem claim_C5 (id : Int) :
    normalizeShortDateDisplay "010125" = "01/01/25" ∧
    normalizeShortDateDisplay "02/15/2025" = "02/15/25" ∧
    getDurationDays ⟨id, "010125", "02/15/2025"⟩ CalcMode.STATE_JAIL = 45 ∧
    formatDays 45 = "45 days" ∧
    getDurationDays ⟨id, "010125", "02/15/2025"⟩ CalcMode.TCJ_TDCJ = 46 := by
  refine ⟨by decide, by decide, ?_, by decide, ?_⟩ <;>
    · show getDurationDays ⟨id, "010125", "02/15/2025"⟩ _ = _
      unfold getDurationDays
      rw [if_neg (by simp)]
      have h1 : parseShortDate "010125" = some ⟨2025, 1, 1⟩ := by decide
      have h2 : parseShortDate "02/15/2025" = some ⟨2025, 2, 15⟩ := by decide
      rw [show (⟨id, "010125", "02/15/2025"⟩ : TimeRangeRow).start = "010125" from rfl,
        show (⟨id, "010125", "02/15/2025"⟩ : TimeRangeRow).stop = "02/15/2025" from rfl,
        h1, h2]
      decide

/-! ## Claim C7 -/

/-- C7: the row-store operations preserve non-emptiness; removeLastRow on
a singleton store keeps the row and clears its fields, and on two or more
rows removes exactly the final row. -/
theorem claim_C7 (rows : List TimeRangeRow) (st : AppState)
    (freshId freshId2 id : Int) (field : RowField) (v : String)
    (r : TimeRangeRow) :
    (rows ≠ [] →
      addRow rows freshId ≠ [] ∧ removeLastRow rows ≠ [] ∧
      updateRow rows id field v ≠ [] ∧ normalizeRowField rows id field ≠ [] ∧
      (handleClearAll st freshId2).rows ≠ [])
  ∧ removeLastRow [r] = [⟨r.id, "", ""⟩]
  ∧ (2 ≤ rows.length →
      removeLastRow rows = rows.take (rows.length - 1) ∧
      (removeLastRow rows).length = rows.length - 1) := by
  refine ⟨?_, ?_, ?_⟩
  · intro hne
    refine ⟨by simp [addRow], ?_, by simp [updateRow, hne], by simp [normalizeRowField, hne], by simp [handleClearAll]⟩
    unfold removeLastRow
    split
    · simp [hne]
    · rename_i hlen
      have h2 : 2 ≤ rows.length := by omega
      have : rows.dropLast.length = rows.length - 1 := by simp
      intro hnil
      rw [hnil] at this
      simp at this
      omega
  · rfl
  · intro h2
    have hno : ¬ rows.length ≤ 1 := by omega
    unfold removeLastRow
    rw [if_neg hno]
    exact ⟨List.dropLast_eq_take rows, by simp⟩

/-- C7 witness: concrete checks on a two-row store. -/
theorem claim_C7_witness :
    removeLastRow [⟨1, "a", "b"⟩, ⟨2, "c", "d"⟩] ≠ [] ∧
    (removeLastRow [⟨1, "a", "b"⟩, ⟨2, "c", "d"⟩]).length = 1 :=
  ⟨((claim_C7 [⟨1, "a", "b"⟩, ⟨2, "c", "d"⟩] sampleState 3 4 1 RowField.start "x"
      ⟨9, "p", "q"⟩).1 (by decide)).2.1,
    (((claim_C7 [⟨1, "a", "b"⟩, ⟨2, "c", "d"⟩] sampleState 3 4 1 RowField.start "x"
      ⟨9, "p", "q"⟩).2.2) (by decide)).2⟩

/-! ## Claim C2 -/

/-- The formatted day label always holds at least one character. -/
theorem formatDays_ne_empty (n : Int) : formatDays n ≠ "" := by
  unfold formatDays
  split
  · decide
  · intro h
    have hd := congrArg String.data h
    simp only [String.data_append] at hd
    rcases List.append_eq_nil.mp hd with ⟨hl, -⟩
    rcases List.append_eq_nil.mp hl with ⟨-, hmid⟩
    exact absurd hmid (by decide)

/-- The combined expression is empty exactly when no row has two parsing
endpoints. -/
theorem combinedExpression_eq_empty_iff (rows : List TimeRangeRow) (mode : CalcMode) :
    combinedExpression rows mode = "" ↔ rangeParts rows = [] := by
  unfold combinedExpression
  constructor
  · intro h
    by_contra hne
    rw [if_pos hne] at h
    have hd := congrArg String.data h
    simp only [String.data_append] at hd
    rcases List.append_eq_nil.mp hd with ⟨-, hfd⟩
    exact formatDays_ne_empty (totalDays rows mode) (String.ext hfd)
  · intro h
    rw [h]
    simp

/-- The total is a sum of nonnegative durations, hence at least the
accumulator it starts from. -/
theorem totalDays_nonneg (rows : List TimeRangeRow) (mode : CalcMode) :
    0 ≤ totalDays rows mode := by
  unfold totalDays
  suffices h : ∀ (l : List TimeRangeRow) (a : Int),
      a ≤ l.foldl (fun sum row => sum + getDurationDays row mode) a by
    exact h rows 0
  intro l
  induction l with
  | nil => intro a; exact le_refl a
  | cons x t ih =>
    intro a
    calc a ≤ a + getDurationDays x mode := by
            have := getDurationDays_nonneg x mode; omega
      _ ≤ t.foldl (fun sum row => sum + getDurationDays row mode)
            (a + getDurationDays x mode) := ih _

/-- No bracketed range appears exactly when every row has a failing
endpoint. -/
theorem rangeParts_eq_nil_iff (rows : List TimeRangeRow) :
    rangeParts rows = [] ↔
      ∀ r ∈ rows, parseShortDate r.start = none ∨ parseShortDate r.stop = none := by
  unfold rangeParts
  rw [List.filterMap_eq_nil_iff]
  constructor
  · intro h r hr
    have hh := h r hr
    cases hps : parseShortDate r.start with
    | none => exact Or.inl rfl
    | some s =>
      cases hpe : parseShortDate r.stop with
      | none => exact Or.inr rfl
      | some e =>
        rw [hps, hpe] at hh
        exact absurd hh (by simp)
  · intro h r hr
    rcases h r hr with hh | hh
    · rw [hh]
    · rw [hh]
      cases hps : parseShortDate r.start <;> rfl

/-- The any call of the duplicate check, read as an existence
statement. -/
theorem labelTakenCI_iff (saved : List SavedCalculation) (label : String) :
    labelTakenCI saved label = true ↔
      ∃ c ∈ saved, jsToLowerCase c.label = jsToLowerCase label := by
  unfold labelTakenCI
  rw [List.any_eq_true]
  constructor
  · rintro ⟨c, hc, h⟩
    exact ⟨c, hc, of_decide_eq_true h⟩
  · rintro ⟨c, hc, h⟩
    exact ⟨c, hc, decide_eq_true h⟩

/-- The guard of the save path matches the spec-side description: zero
total or no parsing range. -/
theorem saveEmptyCond_iff (rows : List TimeRangeRow) (mode : CalcMode) :
    (combinedExpression rows mode = "" ∨ totalDays rows mode ≤ 0) ↔
      (totalDays rows mode = 0 ∨
        ∀ r ∈ rows, parseShortDate r.start = none ∨ parseShortDate r.stop = none) := by
  have h1 := combinedExpression_eq_empty_iff rows mode
  have h2 := rangeParts_eq_nil_iff rows
  have h3 := totalDays_nonneg rows mode
  constructor
  · rintro (h | h)
    · exact Or.inr (h2.mp (h1.mp h))
    · exact Or.inl (le_antisymm h h3)
  · rintro (h | h)
    · exact Or.inr (le_of_eq h)
    · exact Or.inl (h1.mpr (h2.mpr h))

/-- The object spread copies a row field by field, so the copy equals the
original. -/
theorem map_copyRow (l : List TimeRangeRow) : l.map copyRow = l := by
  induction l with
  | nil => rfl
  | cons x t ih =>
    rw [List.map_cons, ih]
    rw [show copyRow x = x from rfl]

/-- C2: a save fails with the empty-input message exactly when the total
is zero or no range parses; otherwise it fails with the duplicate message
exactly when a stored label matches the effective label up to case;
otherwise it succeeds and appends a snapshot of the rows, mode and
timestamp. -/
theorem claim_C2 (st : AppState) (now : Int) :
    ((handleSaveCurrent st now).saveError = some emptyInputMsg ↔
      (totalDays st.rows st.mode = 0 ∨
        ∀ r ∈ st.rows, parseShortDate r.start = none ∨ parseShortDate r.stop = none))
  ∧ ((handleSaveCurrent st now).saveError = some duplicateMsg ↔
      (¬(totalDays st.rows st.mode = 0 ∨
          ∀ r ∈ st.rows, parseShortDate r.start = none ∨ parseShortDate r.stop = none) ∧
        ∃ c ∈ st.savedCalculations,
          jsToLowerCase c.label = jsToLowerCase (effectiveLabel st)))
  ∧ ((handleSaveCurrent st now).saveError = none ↔
      (¬(totalDays st.rows st.mode = 0 ∨
          ∀ r ∈ st.rows, parseShortDate r.start = none ∨ parseShortDate r.stop = none) ∧
        ¬∃ c ∈ st.savedCalculations,
          jsToLowerCase c.label = jsToLowerCase (effectiveLabel st)))
  ∧ ((handleSaveCurrent st now).saveError = none →
      (handleSaveCurrent st now).savedCalculations
        = st.savedCalculations ++ [⟨effectiveLabel st, st.rows, st.mode, now⟩]) := by
  have hmsg : emptyInputMsg ≠ duplicateMsg := by decide
  by_cases hempty : combinedExpression st.rows st.mode = "" ∨ totalDays st.rows st.mode ≤ 0
  · have hE := (saveEmptyCond_iff st.rows st.mode).mp hempty
    have hsave : handleSaveCurrent st now = { st with saveError := some emptyInputMsg } := by
      unfold handleSaveCurrent
      rw [if_pos hempty]
    rw [hsave]
    exact ⟨iff_of_true rfl hE,
      iff_of_false (by simp [hmsg]) (by tauto),
      iff_of_false (by simp) (by tauto),
      by intro h; simp at h⟩
  · have hnE : ¬(totalDays st.rows st.mode = 0 ∨
        ∀ r ∈ st.rows, parseShortDate r.start = none ∨ parseShortDate r.stop = none) :=
      fun h => hempty ((saveEmptyCond_iff st.rows st.mode).mpr h)
    by_cases hdup : labelTakenCI st.savedCalculations (effectiveLabel st) = true
    · have hD := (labelTakenCI_iff st.savedCalculations (effectiveLabel st)).mp hdup
      have hsave : handleSaveCurrent st now = { st with saveError := some duplicateMsg } := by
        unfold handleSaveCurrent
        rw [if_neg hempty]
        dsimp only
        rw [if_pos hdup]
      rw [hsave]
      exact ⟨iff_of_false (by simp [hmsg.symm]) (by tauto),
        iff_of_true rfl ⟨hnE, hD⟩,
        iff_of_false (by simp) (fun h => h.2 hD),
        by intro h; simp at h⟩
    · have hnD : ¬∃ c ∈ st.savedCalculations,
          jsToLowerCase c.label = jsToLowerCase (effectiveLabel st) :=
        fun h => hdup ((labelTakenCI_iff st.savedCalculations (effectiveLabel st)).mpr h)
      have hsave : handleSaveCurrent st now =
          { st with
            savedCalculations := st.savedCalculations
              ++ [⟨effectiveLabel st, st.rows.map copyRow, st.mode, now⟩],
            saveError := none,
            saveBanner := some (saveBannerMsg (effectiveLabel st)),
            savedOpen := true } := by
        unfold handleSaveCurrent
        rw [if_neg hempty]
        dsimp only
        rw [if_neg hdup]
      rw [hsave]
      refine ⟨iff_of_false (by simp) (by tauto),
        iff_of_false (by simp) (fun h => hnD h.2),
        iff_of_true rfl ⟨hnE, hnD⟩,
        fun _ => ?_⟩
      show st.savedCalculations ++ [⟨effectiveLabel st, st.rows.map copyRow, st.mode, now⟩]
        = st.savedCalculations ++ [⟨effectiveLabel st, st.rows, st.mode, now⟩]
      rw [map_copyRow]

/-- C2 witness: a concrete successful save appends exactly one
snapshot. -/
theorem claim_C2_witness :
    (handleSaveCurrent sampleState 100).saveError = none ∧
    (handleSaveCurrent sampleState 100).savedCalculations
      = sampleState.savedCalculations
        ++ [⟨effectiveLabel sampleState, sampleState.rows, sampleState.mode, 100⟩] :=
  ⟨by decide, (claim_C2 sampleState 100).2.2.2 (by decide)⟩

/-! ## Claim C9 -/

/-- A save whose guard finds nothing to store only sets the inline
error. -/
theorem handleSaveCurrent_emptyBranch (st : AppState) (now : Int)
    (h : combinedExpression st.rows st.mode = "" ∨ totalDays st.rows st.mode ≤ 0) :
    handleSaveCurrent st now = { st with saveError := some emptyInputMsg } := by
  unfold handleSaveCurrent
  rw [if_pos h]

/-- A save that hits the duplicate check only sets the inline error. -/
theorem handleSaveCurrent_dupBranch (st : AppState) (now : Int)
    (h1 : ¬(combinedExpression st.rows st.mode = "" ∨ totalDays st.rows st.mode ≤ 0))
    (h2 : labelTakenCI st.savedCalculations (effectiveLabel st) = true) :
    handleSaveCurrent st now = { st with saveError := some duplicateMsg } := by
  unfold handleSaveCurrent
  rw [if_neg h1]
  dsimp only
  rw [if_pos h2]

/-- A save that passes both checks appends the snapshot, clears the error
and opens the panel with a banner. -/
theorem handleSaveCurrent_successBranch (st : AppState) (now : Int)
    (h1 : ¬(combinedExpression st.rows st.mode = "" ∨ totalDays st.rows st.mode ≤ 0))
    (h2 : ¬ labelTakenCI st.savedCalculations (effectiveLabel st) = true) :
    handleSaveCurrent st now =
      { st with
        savedCalculations := st.savedCalculations
          ++ [⟨effectiveLabel st, st.rows.map copyRow, st.mode, now⟩],
        saveError := none,
        saveBanner := some (saveBannerMsg (effectiveLabel st)),
        savedOpen := true } := by
  unfold handleSaveCurrent
  rw [if_neg h1]
  dsimp only
  rw [if_neg h2]

/-- C9: a failed save changes nothing but the inline error: the snapshot
store, rows, mode, identifier, selection, retained live snapshot, banner
and panel flag all keep their values. -/
theorem claim_C9 (st : AppState) (now : Int)
    (h : (handleSaveCurrent st now).saveError ≠ none) :
    (handleSaveCurrent st now).rows = st.rows ∧
    (handleSaveCurrent st now).mode = st.mode ∧
    (handleSaveCurrent st now).identifier = st.identifier ∧
    (handleSaveCurrent st now).savedCalculations = st.savedCalculations ∧
    (handleSaveCurrent st now).activeSavedId = st.activeSavedId ∧
    (handleSaveCurrent st now).liveState = st.liveState ∧
    (handleSaveCurrent st now).saveBanner = st.saveBanner ∧
    (handleSaveCurrent st now).savedOpen = st.savedOpen := by
  by_cases h1 : combinedExpression st.rows st.mode = "" ∨ totalDays st.rows st.mode ≤ 0
  · rw [handleSaveCurrent_emptyBranch st now h1]
    exact ⟨rfl, rfl, rfl, rfl, rfl, rfl, rfl, rfl⟩
  · by_cases h2 : labelTakenCI st.savedCalculations (effectiveLabel st) = true
    · rw [handleSaveCurrent_dupBranch st now h1 h2]
      exact ⟨rfl, rfl, rfl, rfl, rfl, rfl, rfl, rfl⟩
    · exfalso
      apply h
      rw [handleSaveCurrent_successBranch st now h1 h2]

/-- A sample state whose single row is blank, so a save fails. -/
def emptyRowState : AppState :=
  { sampleState with rows := [⟨1, "", ""⟩] }

/-- C9 witness: the failed save on a blank row leaves the store and rows
alone. -/
theorem claim_C9_witness :
    (handleSaveCurrent emptyRowState 5).saveError ≠ none ∧
    (handleSaveCurrent emptyRowState 5).savedCalculations
      = emptyRowState.savedCalculations ∧
    (handleSaveCurrent emptyRowState 5).rows = emptyRowState.rows :=
  ⟨by decide, (claim_C9 emptyRowState 5 (by decide)).2.2.2.1,
    (claim_C9 emptyRowState 5 (by decide)).1⟩

/-! ## Claim C10 -/

/-- C10: deleting a label that is not the active selection removes exactly
the snapshots with that label and leaves the working rows, mode,
identifier, retained live snapshot and selection unchanged. -/
theorem claim_C10 (st : AppState) (id : String) (freshId : Int)
    (h : st.activeSavedId ≠ some id) :
    (handleDeleteSaved st id freshId).savedCalculations
      = st.savedCalculations.filter (fun c => c.label ≠ id) ∧
    (handleDeleteSaved st id freshId).rows = st.rows ∧
    (handleDeleteSaved st id freshId).mode = st.mode ∧
    (handleDeleteSaved st id freshId).identifier = st.identifier ∧
    (handleDeleteSaved st id freshId).liveState = st.liveState ∧
    (handleDeleteSaved st id freshId).activeSavedId = st.activeSavedId := by
  have hd : handleDeleteSaved st id freshId
      = { st with
          savedCalculations :=
            st.savedCalculations.filter (fun c => !(c.label == id)) } := by
    unfold handleDeleteSaved
    dsimp only
    rw [if_neg h]
  rw [hd]
  refine ⟨?_, rfl, rfl, rfl, rfl, rfl⟩
  show st.savedCalculations.filter (fun c => !(c.label == id)) = _
  apply List.filter_congr
  intro c hc
  by_cases heq : c.label = id <;> simp [heq]

/-- A sample state holding one saved snapshot and a live selection. -/
def stWithSaved : AppState :=
  { sampleState with
    savedCalculations := [⟨"Old", [⟨2, "01/01/25", "01/02/25"⟩], CalcMode.TCJ_TDCJ, 7⟩] }

/-- C10 witness: deleting the only snapshot while the live calculation is
active empties the store without touching the rows. -/
theorem claim_C10_witness :
    (handleDeleteSaved stWithSaved "Old" 9).savedCalculations = [] ∧
    (handleDeleteSaved stWithSaved "Old" 9).rows = stWithSaved.rows := by
  have h := claim_C10 stWithSaved "Old" 9 (by decide)
  refine ⟨?_, h.2.1⟩
  rw [h.1]
  decide

/-! ## Claim C4 -/

/-- Selecting a label that resolves to a snapshot installs copies of the
snapshot's rows, its mode and its label, capturing the live state first
when the selection leaves the live calculation. -/
theorem handleSelectSaved_found (st : AppState) (l : String)
    (found : SavedCalculation)
    (hf : st.savedCalculations.find? (fun c => c.label == l) = some found) :
    handleSelectSaved st (some l)
      = { (if st.activeSavedId = none then
            { st with liveState := some ⟨st.rows, st.mode, st.identifier⟩ }
          else st) with
          activeSavedId := some l,
          rows := found.rows.map copyRow,
          mode := found.mode,
          identifier := found.label } := by
  unfold handleSelectSaved
  dsimp only
  rw [hf]

/-- Selecting null with a retained live snapshot restores that
snapshot. -/
theorem handleSelectSaved_none_live (st : AppState) (live : LiveSnapshot)
    (h : st.liveState = some live) :
    handleSelectSaved st none
      = { st with
          activeSavedId := none,
          rows := live.rows,
          mode := live.mode,
          identifier := live.identifier } := by
  unfold handleSelectSaved
  dsimp only
  rw [show ({ st with activeSavedId := none } : AppState).liveState
    = st.liveState from rfl, h]

/-- C4: after a successful save, selecting the saved label installs rows
and mode equal to those at save time; and from a viewing state reached
from live, selecting null restores rows, mode and identifier of the state
at the first navigation away. -/
theorem claim_C4 (st : AppState) (now : Int) (lbl : String) :
    ((handleSaveCurrent st now).saveError = none →
      (handleSelectSaved (handleSaveCurrent st now) (some (effectiveLabel st))).rows
        = st.rows ∧
      (handleSelectSaved (handleSaveCurrent st now) (some (effectiveLabel st))).mode
        = st.mode)
  ∧ (st.activeSavedId = none →
      (st.savedCalculations.find? (fun c => c.label == lbl)).isSome = true →
      (handleSelectSaved (handleSelectSaved st (some lbl)) none).rows = st.rows ∧
      (handleSelectSaved (handleSelectSaved st (some lbl)) none).mode = st.mode ∧
      (handleSelectSaved (handleSelectSaved st (some lbl)) none).identifier
        = st.identifier) := by
  constructor
  · intro hsucc
    by_cases h1 : combinedExpression st.rows st.mode = "" ∨ totalDays st.rows st.mode ≤ 0
    · rw [handleSaveCurrent_emptyBranch st now h1] at hsucc
      exact absurd hsucc (by simp)
    · by_cases h2 : labelTakenCI st.savedCalculations (effectiveLabel st) = true
      · rw [handleSaveCurrent_dupBranch st now h1 h2] at hsucc
        exact absurd hsucc (by simp)
      · rw [handleSaveCurrent_successBranch st now h1 h2]
        have hfindold : st.savedCalculations.find?
            (fun c => c.label == effectiveLabel st) = none := by
          rw [List.find?_eq_none]
          intro c hc hbeq
          apply h2
          apply (labelTakenCI_iff _ _).mpr
          exact ⟨c, hc, by rw [eq_of_beq hbeq]⟩
        have hfind : (({ st with
              savedCalculations := st.savedCalculations
                ++ [⟨effectiveLabel st, st.rows.map copyRow, st.mode, now⟩],
              saveError := none,
              saveBanner := some (saveBannerMsg (effectiveLabel st)),
              savedOpen := true } : AppState).savedCalculations.find?
            (fun c => c.label == effectiveLabel st))
            = some ⟨effectiveLabel st, st.rows.map copyRow, st.mode, now⟩ := by
          show ((st.savedCalculations
            ++ [(⟨effectiveLabel st, st.rows.map copyRow, st.mode, now⟩
              : SavedCalculation)]).find?
            (fun c => c.label == effectiveLabel st)) = _
          rw [List.find?_append, hfindold]
          simp [List.find?]
        rw [handleSelectSaved_found _ _ _ hfind]
        constructor
        · show ((⟨effectiveLabel st, st.rows.map copyRow, st.mode, now⟩
            : SavedCalculation).rows.map copyRow) = st.rows
          show (st.rows.map copyRow).map copyRow = st.rows
          rw [map_copyRow, map_copyRow]
        · rfl
  · intro hact hfind
    obtain ⟨found, hf⟩ := Option.isSome_iff_exists.mp hfind
    rw [handleSelectSaved_found st lbl found hf, if_pos hact]
    rw [handleSelectSaved_none_live _ ⟨st.rows, st.mode, st.identifier⟩ rfl]
    exact ⟨rfl, rfl, rfl⟩

/-- C4 witness: the concrete save/select and view/return round trips. -/
theorem claim_C4_witness :
    (handleSaveCurrent sampleState 100).saveError = none ∧
    (handleSelectSaved (handleSaveCurrent sampleState 100)
        (some (effectiveLabel sampleState))).rows = sampleState.rows ∧
    (handleSelectSaved (handleSelectSaved stWithSaved (some "Old")) none).rows
      = stWithSaved.rows ∧
    (handleSelectSaved (handleSelectSaved stWithSaved (some "Old")) none).identifier
      = stWithSaved.identifier :=
  ⟨by decide,
    ((claim_C4 sampleState 100 "x").1 (by decide)).1,
    ((claim_C4 stWithSaved 100 "Old").2 (by decide) (by decide)).1,
    ((claim_C4 stWithSaved 100 "Old").2 (by decide) (by decide)).2.2⟩

/-! ## Claim C3 -/

/-- Value of a digit string read back as a number. -/
def digitsVal (ds : List Char) : Nat :=
  ds.foldl (fun a c => a * 10 + (c.toNat - 48)) 0

/-- Reading a digit string after appending one digit. -/
theorem digitsVal_append (xs : List Char) (c : Char) :
    digitsVal (xs ++ [c]) = digitsVal xs * 10 + (c.toNat - 48) := by
  unfold digitsVal
  rw [List.foldl_append]
  rfl

/-- The digit rendering is read back to the number it came from. -/
theorem natDigitsAux_val :
    ∀ (fuel n : Nat), n < fuel → digitsVal (natDigitsAux fuel n) = n := by
  intro fuel
  induction fuel with
  | zero => intro n h; exact absurd h (Nat.not_lt_zero n)
  | succ f ih =>
    intro n h
    unfold natDigitsAux
    split
    · rename_i h10
      interval_cases n <;> decide
    · rename_i h10
      push_neg at h10
      rw [digitsVal_append]
      have hdiv : n / 10 < f := by
        have hlt := Nat.div_lt_self (show 0 < n by omega) (show 1 < 10 by omega)
        omega
      rw [ih (n / 10) hdiv]
      have hm : n % 10 < 10 := Nat.mod_lt _ (by omega)
      have hc : (Char.ofNat (48 + n % 10)).toNat - 48 = n % 10 := by
        set m := n % 10 with hmdef
        interval_cases m <;> decide
      rw [hc]
      omega

/-- Decimal rendering is injective. -/
theorem natStr_injective : Function.Injective natStr := by
  intro a b h
  have hd : natDigits a = natDigits b := congrArg String.data h
  have ha := natDigitsAux_val (a + 1) a (Nat.lt_succ_self a)
  have hb := natDigitsAux_val (b + 1) b (Nat.lt_succ_self b)
  unfold natDigits at hd
  rw [← ha, ← hb, hd]

/-- Generated labels of distinct numbers differ. -/
theorem calcLabel_injective : Function.Injective calcLabel := by
  intro a b h
  apply natStr_injective
  have hd := congrArg String.data h
  simp only [calcLabel, String.data_append] at hd
  exact String.ext (List.append_cancel_left hd)

/-- A list of length L cannot contain all L + 1 candidate labels, so one
of Calculation 1 … Calculation (L + 1) is free. -/
theorem exists_free_calcLabel (labels : List String) :
    ∃ m, 1 ≤ m ∧ m ≤ labels.length + 1 ∧ calcLabel m ∉ labels := by
  by_contra hcon
  push_neg at hcon
  have hsub : (Finset.range (labels.length + 1)).image (fun k => calcLabel (k + 1))
      ⊆ labels.toFinset := by
    intro x hx
    rw [Finset.mem_image] at hx
    obtain ⟨k, hk, rfl⟩ := hx
    rw [Finset.mem_range] at hk
    rw [List.mem_toFinset]
    exact hcon (k + 1) (by omega) (by omega)
  have hcard := Finset.card_le_card hsub
  rw [Finset.card_image_of_injective _
      (fun a b hab => by have := calcLabel_injective hab; omega),
    Finset.card_range] at hcard
  have hfin := labels.toFinset_card_le
  omega

/-- The fuel-bounded loop returns the least free label number at or after
its start, as long as one lies within the fuel window. -/
theorem findCalcNAux_spec (labels : List String) :
    ∀ (fuel start : Nat),
      (∃ m, start ≤ m ∧ m < start + fuel ∧ calcLabel m ∉ labels) →
      (calcLabel (findCalcNAux labels fuel start) ∉ labels ∧
        start ≤ findCalcNAux labels fuel start ∧
        ∀ k, start ≤ k → k < findCalcNAux labels fuel start →
          calcLabel k ∈ labels) := by
  intro fuel
  induction fuel with
  | zero =>
    intro start h
    obtain ⟨m, h1, h2, -⟩ := h
    omega
  | succ f ih =>
    intro start h
    unfold findCalcNAux
    split
    · rename_i hin
      have hex : ∃ m, start + 1 ≤ m ∧ m < (start + 1) + f ∧ calcLabel m ∉ labels := by
        obtain ⟨m, h1, h2, h3⟩ := h
        refine ⟨m, ?_, by omega, h3⟩
        rcases Nat.eq_or_lt_of_le h1 with heq | hlt
        · rw [← heq] at h3
          exact absurd hin h3
        · omega
      obtain ⟨hfree, hge, hleast⟩ := ih (start + 1) hex
      refine ⟨hfree, by omega, ?_⟩
      intro k hk1 hk2
      rcases Nat.eq_or_lt_of_le hk1 with heq | hlt
      · rw [← heq]
        exact hin
      · exact hleast k (by omega) hk2
    · rename_i hnotin
      exact ⟨hnotin, le_refl start, fun k hk1 hk2 => by omega⟩

/-- The loop as run by the save path: its result is free and every earlier
candidate from 1 on is taken. -/
theorem findCalcN_spec (labels : List String) :
    calcLabel (findCalcN labels) ∉ labels ∧
    1 ≤ findCalcN labels ∧
    ∀ k, 1 ≤ k → k < findCalcN labels → calcLabel k ∈ labels := by
  obtain ⟨m, h1, h2, h3⟩ := exists_free_calcLabel labels
  exact findCalcNAux_spec labels (labels.length + 1) 1 ⟨m, h1, by omega, h3⟩

/-- A state whose stored label is a lowercase case variant of the first
generated label. -/
def lowercaseState : AppState :=
  { sampleState with
    identifier := "",
    savedCalculations :=
      [⟨"calculation 1", [⟨2, "01/01/25", "01/02/25"⟩], CalcMode.STATE_JAIL, 0⟩] }

/-- C3 counterexample: a blank-label save over the stored label
calculation 1 does not succeed with any generated label: the loop picks
Calculation 1 because the skip test is exact-match, and the
case-insensitive duplicate check then rejects the save, leaving the store
unchanged. -/
theorem claim_C3_counterexample :
    (handleSaveCurrent lowercaseState 100).saveError = some duplicateMsg ∧
    (handleSaveCurrent lowercaseState 100).savedCalculations
      = lowercaseState.savedCalculations := by
  constructor <;> decide

/-- C3 as amended: with a blank identifier and a valid nonzero total, the
save uses label Calculation N for the least N not already used as an
exact label; when that label collides with a stored label up to case the
save fails with the duplicate error and changes nothing, otherwise it
succeeds with that label. -/
theorem claim_C3_amended (st : AppState) (now : Int)
    (hblank : jsTrim st.identifier = "")
    (hvalid : ¬(totalDays st.rows st.mode = 0 ∨
      ∀ r ∈ st.rows, parseShortDate r.start = none ∨ parseShortDate r.stop = none)) :
    (calcLabel (findCalcN (st.savedCalculations.map (fun c => c.label)))
        ∉ st.savedCalculations.map (fun c => c.label) ∧
      ∀ k, 1 ≤ k → k < findCalcN (st.savedCalculations.map (fun c => c.label)) →
        calcLabel k ∈ st.savedCalculations.map (fun c => c.label))
  ∧ ((∃ c ∈ st.savedCalculations, jsToLowerCase c.label
        = jsToLowerCase (calcLabel (findCalcN (st.savedCalculations.map (fun c => c.label))))) →
      (handleSaveCurrent st now).saveError = some duplicateMsg ∧
      (handleSaveCurrent st now).savedCalculations = st.savedCalculations)
  ∧ (¬(∃ c ∈ st.savedCalculations, jsToLowerCase c.label
        = jsToLowerCase (calcLabel (findCalcN (st.savedCalculations.map (fun c => c.label))))) →
      (handleSaveCurrent st now).saveError = none ∧
      (handleSaveCurrent st now).savedCalculations
        = st.savedCalculations
          ++ [⟨calcLabel (findCalcN (st.savedCalculations.map (fun c => c.label))),
              st.rows, st.mode, now⟩]) := by
  have hguard : ¬(combinedExpression st.rows st.mode = ""
      ∨ totalDays st.rows st.mode ≤ 0) :=
    fun h => hvalid ((saveEmptyCond_iff st.rows st.mode).mp h)
  have heff : effectiveLabel st
      = calcLabel (findCalcN (st.savedCalculations.map (fun c => c.label))) := by
    unfold effectiveLabel
    rw [hblank]
    rfl
  refine ⟨?_, ?_, ?_⟩
  · obtain ⟨hfree, -, hleast⟩ :=
      findCalcN_spec (st.savedCalculations.map (fun c => c.label))
    exact ⟨hfree, hleast⟩
  · intro hex
    have hdup : labelTakenCI st.savedCalculations (effectiveLabel st) = true := by
      apply (labelTakenCI_iff _ _).mpr
      rw [heff]
      exact hex
    rw [handleSaveCurrent_dupBranch st now hguard hdup]
    exact ⟨rfl, rfl⟩
  · intro hex
    have hdup : ¬ labelTakenCI st.savedCalculations (effectiveLabel st) = true := by
      intro hT
      apply hex
      have := (labelTakenCI_iff _ _).mp hT
      rw [heff] at this
      exact this
    rw [handleSaveCurrent_successBranch st now hguard hdup]
    refine ⟨rfl, ?_⟩
    show st.savedCalculations ++ [⟨effectiveLabel st, st.rows.map copyRow, st.mode, now⟩] = _
    rw [heff, map_copyRow]

/-- A valid live state with a blank identifier and an empty store. -/
def blankIdState : AppState :=
  { sampleState with identifier := "" }

/-- C3 amended witness: the blank-label save over an empty store succeeds
with the label Calculation 1. -/
theorem claim_C3_amended_witness :
    (handleSaveCurrent blankIdState 100).saveError = none ∧
    (handleSaveCurrent blankIdState 100).savedCalculations
      = [⟨calcLabel (findCalcN []), blankIdState.rows, blankIdState.mode, 100⟩] :=
  (claim_C3_amended blankIdState 100 (by decide) (by decide)).2.2 (by decide)

/-! ## Claim C6 -/

/-- The blank row of the initial state, for loader scenarios. -/
def initRow0 : JRow := ⟨JVal.num 0, JVal.str "", JVal.str ""⟩

/-- A fixed fresh-id source for loader scenarios. -/
def fresh0 : Nat → Int := fun _ => 0

/-- A stored record whose row carries a number where the start text
belongs. -/
def badStored : JVal :=
  JVal.obj [("rows", JVal.arr
    [JVal.obj [("id", JVal.num 1), ("start", JVal.num 42), ("end", JVal.str "")]])]

/-- C6 counterexample: loading a row whose start field holds the number 42
keeps the number as-is instead of defaulting the wrong-typed field to the
empty string, refuting the claim that any wrong-typed field is replaced by
its default. -/
theorem claim_C6_counterexample :
    (loadState (some badStored) initRow0 fresh0 0).rows
      = [⟨JVal.num 1, JVal.num 42, JVal.str ""⟩] ∧
    JVal.num 42 ≠ JVal.str "" :=
  ⟨rfl, fun h => JVal.noConfusion h⟩

/-- A non-null row element never throws: the callback produces the
coalesced record. -/
theorem safeRow_ne_null {freshIds : Nat → Int} {i : Nat} {v : JVal}
    (h : v ≠ JVal.null) :
    safeRow freshIds i v
      = some
        { id := jsCoalesce (jGet v "id") (JVal.num (freshIds i)),
          start := jsCoalesce (jGet v "start") (JVal.str ""),
          stop := jsCoalesce (jGet v "end") (JVal.str "") } := by
  cases v with
  | null => exact absurd rfl h
  | bool b => rfl
  | num n => rfl
  | str s => rfl
  | arr l => rfl
  | obj f => rfl

/-- A non-null saved element never throws: the callback produces the
checked record. -/
theorem sanitizeSaved_ne_null {loadTime : Int} {c : JVal} (h : c ≠ JVal.null) :
    sanitizeSaved loadTime c
      = some
        { label := jsToString (jsCoalesce (jGet c "label") (JVal.str "Unnamed")),
          rows :=
            match jGet c "rows" with
            | JVal.arr l => l
            | _ => [],
          mode :=
            match jGet c "mode" with
            | JVal.str s =>
              if s = "TCJ_TDCJ" then CalcMode.TCJ_TDCJ else CalcMode.STATE_JAIL
            | _ => CalcMode.STATE_JAIL,
          createdAt :=
            match jGet c "createdAt" with
            | JVal.num n => n
            | _ => loadTime } := by
  cases c with
  | null => exact absurd rfl h
  | bool b => rfl
  | num n => rfl
  | str s => rfl
  | arr l => rfl
  | obj f => rfl

/-- A null element anywhere in the rows array makes the map throw. -/
theorem safeRowsM_none_of_mem (freshIds : Nat → Int) :
    ∀ (l : List JVal), JVal.null ∈ l → ∀ i, safeRowsM freshIds i l = none := by
  intro l
  induction l with
  | nil => intro h; exact absurd h (List.not_mem_nil _)
  | cons v rest ih =>
    intro h i
    rcases List.mem_cons.mp h with hv | hr
    · unfold safeRowsM
      rw [← hv]
      rfl
    · unfold safeRowsM
      rw [ih hr (i + 1)]
      cases hsr : safeRow freshIds i v
      · rfl
      · rfl

/-- A null element anywhere in the savedCalculations array makes the map
throw. -/
theorem sanitizeSavedM_none_of_mem (loadTime : Int) :
    ∀ (l : List JVal), JVal.null ∈ l → sanitizeSavedM loadTime l = none := by
  intro l
  induction l with
  | nil => intro h; exact absurd h (List.not_mem_nil _)
  | cons c rest ih =>
    intro h
    rcases List.mem_cons.mp h with hc | hr
    · unfold sanitizeSavedM
      rw [← hc]
      rfl
    · unfold sanitizeSavedM
      rw [ih hr]
      cases hs : sanitizeSaved loadTime c
      · rfl
      · rfl

/-- C6 as amended: the load path never crashes the app, and it defaults
exactly what the source defaults: missing or unparseable content yields
the full default state; an unknown mode falls back to state jail; for a
non-null stored saved element a non-number createdAt defaults to the load
time; non-array or empty rows default to the one blank row and non-array
savedCalculations to the empty list; within a non-null stored row only an
absent-or-null field defaults while a present non-null value is kept as
stored; and a null element inside the stored rows array makes the caught
TypeError abort the whole load, leaving every field at its default, while
a null element inside the stored savedCalculations array aborts only that
final install, leaving earlier fields loaded and the snapshot list at its
default. -/
theorem claim_C6_amended (initRow : JRow) (freshIds : Nat → Int)
    (loadTime : Int) (j c v : JVal) (i : Nat) (l : List JVal) :
    (loadState none initRow freshIds loadTime
      = ⟨[initRow], CalcMode.STATE_JAIL, "", []⟩)
  ∧ ((∀ s, jGet j "mode" = JVal.str s → s ≠ "STATE_JAIL" ∧ s ≠ "TCJ_TDCJ") →
      (loadState (some j) initRow freshIds loadTime).mode = CalcMode.STATE_JAIL)
  ∧ (c ≠ JVal.null → (∀ n, jGet c "createdAt" ≠ JVal.num n) →
      ∃ s, sanitizeSaved loadTime c = some s ∧ s.createdAt = loadTime)
  ∧ ((∀ m, jGet j "rows" ≠ JVal.arr m) →
      (loadState (some j) initRow freshIds loadTime).rows = [initRow])
  ∧ (jGet j "rows" = JVal.arr [] →
      (loadState (some j) initRow freshIds loadTime).rows = [initRow])
  ∧ ((∀ m, jGet j "savedCalculations" ≠ JVal.arr m) →
      (loadState (some j) initRow freshIds loadTime).savedCalculations = [])
  ∧ (v ≠ JVal.null → jGet v "start" = JVal.null →
      ∃ r, safeRow freshIds i v = some r ∧ r.start = JVal.str "")
  ∧ (v ≠ JVal.null → jGet v "start" ≠ JVal.null →
      ∃ r, safeRow freshIds i v = some r ∧ r.start = jGet v "start")
  ∧ (jGet j "rows" = JVal.arr l → JVal.null ∈ l →
      loadState (some j) initRow freshIds loadTime
        = ⟨[initRow], CalcMode.STATE_JAIL, "", []⟩)
  ∧ (jGet j "savedCalculations" = JVal.arr l → JVal.null ∈ l →
      (loadState (some j) initRow freshIds loadTime).savedCalculations = []) := by
  refine ⟨rfl, ?_, ?_, ?_, ?_, ?_, ?_, ?_, ?_, ?_⟩
  · intro h
    unfold loadState
    dsimp only
    cases hstep : loadRowsStep j initRow freshIds with
    | none => rfl
    | some rows =>
      show (match jGet j "mode" with
        | JVal.str s =>
          if s = "STATE_JAIL" then CalcMode.STATE_JAIL
          else if s = "TCJ_TDCJ" then CalcMode.TCJ_TDCJ
          else CalcMode.STATE_JAIL
        | _ => CalcMode.STATE_JAIL) = CalcMode.STATE_JAIL
      cases hm : jGet j "mode" with
      | str s =>
        obtain ⟨h1, h2⟩ := h s hm
        simp [h1, h2]
      | null => rfl
      | bool b => rfl
      | num n => rfl
      | arr m => rfl
      | obj f => rfl
  · intro hc hn
    refine ⟨_, sanitizeSaved_ne_null hc, ?_⟩
    show (match jGet c "createdAt" with
      | JVal.num n => n
      | _ => loadTime) = loadTime
    cases hca : jGet c "createdAt" with
    | num n => exact absurd hca (hn n)
    | null => rfl
    | bool b => rfl
    | str s => rfl
    | arr m => rfl
    | obj f => rfl
  · intro h
    have hstep : loadRowsStep j initRow freshIds = some [initRow] := by
      unfold loadRowsStep
      cases hr : jGet j "rows" with
      | arr m => exact absurd hr (h m)
      | null => rfl
      | bool b => rfl
      | num n => rfl
      | str s => rfl
      | obj f => rfl
    unfold loadState
    dsimp only
    rw [hstep]
  · intro h
    have hstep : loadRowsStep j initRow freshIds = some [initRow] := by
      unfold loadRowsStep
      rw [h]
      rfl
    unfold loadState
    dsimp only
    rw [hstep]
  · intro h
    have hsv : loadSavedStep j loadTime = some [] := by
      unfold loadSavedStep
      cases hr : jGet j "savedCalculations" with
      | arr m => exact absurd hr (h m)
      | null => rfl
      | bool b => rfl
      | num n => rfl
      | str s => rfl
      | obj f => rfl
    unfold loadState
    dsimp only
    cases hstep : loadRowsStep j initRow freshIds with
    | none => rfl
    | some rows =>
      show (match loadSavedStep j loadTime with
        | none => []
        | some cs => cs) = []
      rw [hsv]
  · intro hv h
    refine ⟨_, safeRow_ne_null hv, ?_⟩
    show jsCoalesce (jGet v "start") (JVal.str "") = JVal.str ""
    rw [h]
    rfl
  · intro hv h
    refine ⟨_, safeRow_ne_null hv, ?_⟩
    show jsCoalesce (jGet v "start") (JVal.str "") = jGet v "start"
    cases hs : jGet v "start" with
    | null => exact absurd hs h
    | bool b => rfl
    | num n => rfl
    | str s => rfl
    | arr m => rfl
    | obj f => rfl
  · intro hr hmem
    have hstep : loadRowsStep j initRow freshIds = none := by
      unfold loadRowsStep
      rw [hr]
      dsimp only
      rw [if_pos (List.length_pos_of_mem hmem)]
      exact safeRowsM_none_of_mem freshIds l hmem 0
    unfold loadState
    dsimp only
    rw [hstep]
  · intro hr hmem
    have hsv : loadSavedStep j loadTime = none := by
      unfold loadSavedStep
      rw [hr]
      dsimp only
      exact sanitizeSavedM_none_of_mem loadTime l hmem
    unfold loadState
    dsimp only
    cases hstep : loadRowsStep j initRow freshIds with
    | none => rfl
    | some rows =>
      show (match loadSavedStep j loadTime with
        | none => []
        | some cs => cs) = []
      rw [hsv]

/-- A stored record holding a null row element next to a well-typed
identifier: the thrown TypeError must discard the identifier too. -/
def nullRowStored : JVal :=
  JVal.obj [("rows", JVal.arr [JVal.null]), ("identifier", JVal.str "abc")]

/-- C6 amended witness: the malformed-mode scenario falls back to state
jail with the default blank row; a wrong-typed row start is kept; and a
null row element aborts the whole load, leaving even the well-typed
stored identifier at its default. -/
theorem claim_C6_amended_witness :
    (loadState (some (JVal.obj [("mode", JVal.str "BOGUS")])) initRow0 fresh0 0).mode
      = CalcMode.STATE_JAIL ∧
    (loadState (some (JVal.obj [("mode", JVal.str "BOGUS")])) initRow0 fresh0 0).rows
      = [initRow0] ∧
    (∃ r, safeRow fresh0 0 (JVal.obj [("start", JVal.num 42)]) = some r ∧
      r.start = JVal.num 42) ∧
    loadState (some nullRowStored) initRow0 fresh0 0
      = ⟨[initRow0], CalcMode.STATE_JAIL, "", []⟩ := by
  refine ⟨?_, ?_, ?_, ?_⟩
  · refine (claim_C6_amended initRow0 fresh0 0 (JVal.obj [("mode", JVal.str "BOGUS")])
      JVal.null JVal.null 0 []).2.1 ?_
    intro s hs
    injection hs with hs1
    rw [← hs1]
    exact ⟨by decide, by decide⟩
  · refine (claim_C6_amended initRow0 fresh0 0 (JVal.obj [("mode", JVal.str "BOGUS")])
      JVal.null JVal.null 0 []).2.2.2.1 ?_
    intro m hm
    cases hm
  · refine (claim_C6_amended initRow0 fresh0 0 JVal.null JVal.null
      (JVal.obj [("start", JVal.num 42)]) 0 []).2.2.2.2.2.2.2.1 ?_ ?_
    · intro h
      cases h
    · intro h
      cases h
  · exact (claim_C6_amended initRow0 fresh0 0 nullRowStored JVal.null JVal.null 0
      [JVal.null]).2.2.2.2.2.2.2.2.1 rfl (List.mem_cons_self _ _)

/-! ## Claim C8 -/

/-- The element a dropWhile stops on fails the predicate. -/
theorem head_of_dropWhile_false {p : Char → Bool} {l : List Char} {c : Char}
    (h : (l.dropWhile p).head? = some c) : p c = false := by
  have hw := List.head?_dropWhile_not p l
  rw [h] at hw
  exact hw

/-- A list whose head fails the predicate is untouched by dropWhile. -/
theorem dropWhile_eq_self_of_head {p : Char → Bool} {l : List Char}
    (h : ∀ c, l.head? = some c → p c = false) : l.dropWhile p = l := by
  cases l with
  | nil => rfl
  | cons a t =>
    have ha := h a rfl
    rw [List.dropWhile_cons_of_neg (by simp [ha])]

/-- dropWhile keeps the last element of a list it does not empty. -/
theorem getLast_of_dropWhile (p : Char → Bool) (l : List Char)
    (h : l.dropWhile p ≠ []) : (l.dropWhile p).getLast? = l.getLast? := by
  obtain ⟨t, ht⟩ := List.dropWhile_suffix (l := l) p
  conv_rhs => rw [← ht]
  rw [List.getLast?_append]
  cases hg : (l.dropWhile p).getLast? with
  | some x => rfl
  | none => exact absurd (List.getLast?_eq_none_iff.mp hg) h

/-- The first character of a trimmed list is not whitespace. -/
theorem trimL_head {l : List Char} {c : Char}
    (h : (trimL l).head? = some c) : jsWsChar c = false := by
  unfold trimL at h
  rw [List.head?_reverse] at h
  have hne : (l.dropWhile jsWsChar).reverse.dropWhile jsWsChar ≠ [] := by
    intro hB
    rw [hB] at h
    cases h
  rw [getLast_of_dropWhile _ _ hne, List.getLast?_reverse] at h
  exact head_of_dropWhile_false h

/-- The last character of a trimmed list is not whitespace. -/
theorem trimL_getLast {l : List Char} {c : Char}
    (h : (trimL l).getLast? = some c) : jsWsChar c = false := by
  unfold trimL at h
  rw [List.getLast?_reverse] at h
  exact head_of_dropWhile_false h

/-- A list with clean ends is untouched by trimming. -/
theorem trimL_of_clean {l : List Char}
    (hh : ∀ c, l.head? = some c → jsWsChar c = false)
    (hl : ∀ c, l.getLast? = some c → jsWsChar c = false) : trimL l = l := by
  unfold trimL
  rw [dropWhile_eq_self_of_head hh]
  rw [dropWhile_eq_self_of_head
    (fun c hc => hl c (by rwa [List.head?_reverse] at hc))]
  exact List.reverse_reverse l

/-- Trimming is idempotent. -/
theorem trimL_idem (l : List Char) : trimL (trimL l) = trimL l :=
  trimL_of_clean (fun _ hc => trimL_head hc) (fun _ hc => trimL_getLast hc)

/-- A list with no whitespace at all is untouched by trimming. -/
theorem trimL_of_all {l : List Char}
    (h : ∀ c ∈ l, jsWsChar c = false) : trimL l = l := by
  apply trimL_of_clean
  · exact fun c hc => h c (List.mem_of_mem_head? hc)
  · intro c hc
    apply h
    rw [← List.head?_reverse] at hc
    exact List.mem_reverse.mp (List.mem_of_mem_head? hc)

/-- Digit characters are not whitespace. -/
theorem isDigit_not_ws {c : Char} (h : c.isDigit = true) : jsWsChar c = false := by
  cases hc : jsWsChar c
  · rfl
  · exfalso
    unfold jsWsChar at hc
    simp only [Bool.or_eq_true, decide_eq_true_eq] at hc
    rcases hc with ((((h1 | h1) | h1) | h1) | h1) | h1 <;>
      (subst h1; exact absurd h (by decide))

/-- A six-element list in explicit form. -/
theorem exists_six {l : List Char} (h : l.length = 6) :
    ∃ a b c d e f, l = [a, b, c, d, e, f] := by
  rcases l with - | ⟨a, l⟩
  · simp at h
  rcases l with - | ⟨b, l⟩
  · simp at h
  rcases l with - | ⟨c, l⟩
  · simp at h
  rcases l with - | ⟨d, l⟩
  · simp at h
  rcases l with - | ⟨e, l⟩
  · simp at h
  rcases l with - | ⟨f, l⟩
  · simp at h
  rcases l with - | ⟨g, l⟩
  · exact ⟨a, b, c, d, e, f, rfl⟩
  · simp at h

/-- An eight-element list in explicit form. -/
theorem exists_eight {l : List Char} (h : l.length = 8) :
    ∃ a b c d e f g k, l = [a, b, c, d, e, f, g, k] := by
  rcases l with - | ⟨a, l⟩
  · simp at h
  rcases l with - | ⟨b, l⟩
  · simp at h
  rcases l with - | ⟨c, l⟩
  · simp at h
  rcases l with - | ⟨d, l⟩
  · simp at h
  rcases l with - | ⟨e, l⟩
  · simp at h
  rcases l with - | ⟨f, l⟩
  · simp at h
  rcases l with - | ⟨g, l⟩
  · simp at h
  rcases l with - | ⟨k, l⟩
  · simp at h
  rcases l with - | ⟨m, l⟩
  · exact ⟨a, b, c, d, e, f, g, k, rfl⟩
  · simp at h

/-- Padding a short list reaches length two. -/
theorem padStart2_length_le {cs : List Char} (h : cs.length ≤ 2) :
    (padStart2 cs).length = 2 := by
  unfold padStart2
  rw [List.length_append, List.length_replicate]
  omega

/-- Padding leaves a list of length at least two alone. -/
theorem padStart2_of_ge {cs : List Char} (h : 2 ≤ cs.length) :
    padStart2 cs = cs := by
  unfold padStart2
  rw [Nat.sub_eq_zero_of_le h]
  rfl

/-- Padding a digit string yields a digit string. -/
theorem padStart2_digits {cs : List Char}
    (h : ∀ c ∈ cs, c.isDigit = true) :
    ∀ c ∈ padStart2 cs, c.isDigit = true := by
  intro c hc
  unfold padStart2 at hc
  rw [List.mem_append] at hc
  rcases hc with hc | hc
  · rw [List.eq_of_mem_replicate hc]
    decide
  · exact h c hc

/-- The six-digit branch of the normalizer, as an equation. -/
theorem normalizeL_eq6 {l : List Char} (h0 : ¬ trimL l = [])
    (h6 : ((trimL l).filter Char.isDigit).length = 6) :
    normalizeL l = ((trimL l).filter Char.isDigit).take 2
      ++ '/' :: (((trimL l).filter Char.isDigit).drop 2).take 2
      ++ '/' :: (((trimL l).filter Char.isDigit).drop 4).take 2 := by
  unfold normalizeL
  dsimp only
  rw [if_neg h0, if_pos h6]

/-- The eight-digit branch of the normalizer, as an equation. -/
theorem normalizeL_eq8 {l : List Char} (h0 : ¬ trimL l = [])
    (h6 : ¬ ((trimL l).filter Char.isDigit).length = 6)
    (h8 : ((trimL l).filter Char.isDigit).length = 8) :
    normalizeL l = ((trimL l).filter Char.isDigit).take 2
      ++ '/' :: (((trimL l).filter Char.isDigit).drop 2).take 2
      ++ '/' :: (((trimL l).filter Char.isDigit).drop 6).take 2 := by
  unfold normalizeL
  dsimp only
  rw [if_neg h0, if_neg h6, if_pos h8]

/-- The separator-pattern branch of the normalizer, as an equation. -/
theorem normalizeL_eqSlash {l : List Char} {mm dd yy : List Char}
    (h0 : ¬ trimL l = [])
    (h6 : ¬ ((trimL l).filter Char.isDigit).length = 6)
    (h8 : ¬ ((trimL l).filter Char.isDigit).length = 8)
    (hm : matchSlashed (trimL l) = some (mm, dd, yy)) :
    normalizeL l = padStart2 mm ++ '/' :: padStart2 dd
      ++ '/' :: padStart2 (if yy.length = 4 then yy.drop 2 else yy) := by
  unfold normalizeL
  dsimp only
  rw [if_neg h0, if_neg h6, if_neg h8, hm]

/-- The pass-through branch of the normalizer, as an equation. -/
theorem normalizeL_eqFallback {l : List Char} (h0 : ¬ trimL l = [])
    (h6 : ¬ ((trimL l).filter Char.isDigit).length = 6)
    (h8 : ¬ ((trimL l).filter Char.isDigit).length = 8)
    (hm : matchSlashed (trimL l) = none) :
    normalizeL l = trimL l := by
  unfold normalizeL
  dsimp only
  rw [if_neg h0, if_neg h6, if_neg h8, hm]

/-- Normalizing an already canonical two-digit output reproduces it. -/
theorem normalizeL_canonical6 {M D Y : List Char}
    (hM : ∀ c ∈ M, c.isDigit = true) (hD : ∀ c ∈ D, c.isDigit = true)
    (hY : ∀ c ∈ Y, c.isDigit = true)
    (hMl : M.length = 2) (hDl : D.length = 2) (hYl : Y.length = 2) :
    normalizeL (M ++ '/' :: D ++ '/' :: Y) = M ++ '/' :: D ++ '/' :: Y := by
  obtain ⟨a, b, rfl⟩ := List.length_eq_two.mp hMl
  obtain ⟨c, d, rfl⟩ := List.length_eq_two.mp hDl
  obtain ⟨e, f, rfl⟩ := List.length_eq_two.mp hYl
  have ha : a.isDigit = true := hM a (by simp)
  have hb : b.isDigit = true := hM b (by simp)
  have hc : c.isDigit = true := hD c (by simp)
  have hd : d.isDigit = true := hD d (by simp)
  have he : e.isDigit = true := hY e (by simp)
  have hf : f.isDigit = true := hY f (by simp)
  have hs : Char.isDigit '/' = false := by decide
  show normalizeL [a, b, '/', c, d, '/', e, f] = [a, b, '/', c, d, '/', e, f]
  have hall : ∀ ch ∈ ([a, b, '/', c, d, '/', e, f] : List Char),
      jsWsChar ch = false := by
    intro ch hch
    simp only [List.mem_cons, List.not_mem_nil, or_false] at hch
    rcases hch with rfl | rfl | rfl | rfl | rfl | rfl | rfl | rfl
    · exact isDigit_not_ws ha
    · exact isDigit_not_ws hb
    · decide
    · exact isDigit_not_ws hc
    · exact isDigit_not_ws hd
    · decide
    · exact isDigit_not_ws he
    · exact isDigit_not_ws hf
  have hflt : ([a, b, '/', c, d, '/', e, f] : List Char).filter Char.isDigit
      = [a, b, c, d, e, f] := by
    simp [List.filter_cons, ha, hb, hc, hd, he, hf, hs]
  unfold normalizeL
  dsimp only
  rw [trimL_of_all hall, hflt]
  rfl

/-- Normalizing an already canonical output with a three-digit year
reproduces it. -/
theorem normalizeL_canonical7 {M D Y : List Char}
    (hM : ∀ c ∈ M, c.isDigit = true) (hD : ∀ c ∈ D, c.isDigit = true)
    (hY : ∀ c ∈ Y, c.isDigit = true)
    (hMl : M.length = 2) (hDl : D.length = 2) (hYl : Y.length = 3) :
    normalizeL (M ++ '/' :: D ++ '/' :: Y) = M ++ '/' :: D ++ '/' :: Y := by
  obtain ⟨a, b, rfl⟩ := List.length_eq_two.mp hMl
  obtain ⟨c, d, rfl⟩ := List.length_eq_two.mp hDl
  obtain ⟨e, f, g, rfl⟩ := List.length_eq_three.mp hYl
  have ha : a.isDigit = true := hM a (by simp)
  have hb : b.isDigit = true := hM b (by simp)
  have hc : c.isDigit = true := hD c (by simp)
  have hd : d.isDigit = true := hD d (by simp)
  have he : e.isDigit = true := hY e (by simp)
  have hf : f.isDigit = true := hY f (by simp)
  have hg : g.isDigit = true := hY g (by simp)
  have hs : Char.isDigit '/' = false := by decide
  have hsn : ¬ Char.isDigit '/' = true := by decide
  show normalizeL [a, b, '/', c, d, '/', e, f, g] = [a, b, '/', c, d, '/', e, f, g]
  have hall : ∀ ch ∈ ([a, b, '/', c, d, '/', e, f, g] : List Char),
      jsWsChar ch = false := by
    intro ch hch
    simp only [List.mem_cons, List.not_mem_nil, or_false] at hch
    rcases hch with rfl | rfl | rfl | rfl | rfl | rfl | rfl | rfl | rfl
    · exact isDigit_not_ws ha
    · exact isDigit_not_ws hb
    · decide
    · exact isDigit_not_ws hc
    · exact isDigit_not_ws hd
    · decide
    · exact isDigit_not_ws he
    · exact isDigit_not_ws hf
    · exact isDigit_not_ws hg
  have hflt : ([a, b, '/', c, d, '/', e, f, g] : List Char).filter Char.isDigit
      = [a, b, c, d, e, f, g] := by
    simp [List.filter_cons, ha, hb, hc, hd, he, hf, hg, hs]
  have htw1 : ([a, b, '/', c, d, '/', e, f, g] : List Char).takeWhile Char.isDigit
      = [a, b] := by
    rw [List.takeWhile_cons_of_pos ha, List.takeWhile_cons_of_pos hb,
      List.takeWhile_cons_of_neg hsn]
  have hdw1 : ([a, b, '/', c, d, '/', e, f, g] : List Char).dropWhile Char.isDigit
      = '/' :: [c, d, '/', e, f, g] := by
    rw [List.dropWhile_cons_of_pos ha, List.dropWhile_cons_of_pos hb,
      List.dropWhile_cons_of_neg hsn]
  have htw2 : ([c, d, '/', e, f, g] : List Char).takeWhile Char.isDigit
      = [c, d] := by
    rw [List.takeWhile_cons_of_pos hc, List.takeWhile_cons_of_pos hd,
      List.takeWhile_cons_of_neg hsn]
  have hdw2 : ([c, d, '/', e, f, g] : List Char).dropWhile Char.isDigit
      = '/' :: [e, f, g] := by
    rw [List.dropWhile_cons_of_pos hc, List.dropWhile_cons_of_pos hd,
      List.dropWhile_cons_of_neg hsn]
  have htw3 : ([e, f, g] : List Char).takeWhile Char.isDigit = [e, f, g] := by
    rw [List.takeWhile_cons_of_pos he, List.takeWhile_cons_of_pos hf,
      List.takeWhile_cons_of_pos hg]
    rfl
  have hdw3 : ([e, f, g] : List Char).dropWhile Char.isDigit = [] := by
    rw [List.dropWhile_cons_of_pos he, List.dropWhile_cons_of_pos hf,
      List.dropWhile_cons_of_pos hg]
    rfl
  have hmatch : matchSlashed [a, b, '/', c, d, '/', e, f, g]
      = some ([a, b], [c, d], [e, f, g]) := by
    simp [matchSlashed, htw1, hdw1, htw2, hdw2, htw3, hdw3]
  unfold normalizeL
  dsimp only
  rw [trimL_of_all hall, hflt]
  rw [if_neg (by simp : ¬([a, b, '/', c, d, '/', e, f, g] : List Char) = [])]
  rw [if_neg (by simp : ¬([a, b, c, d, e, f, g] : List Char).length = 6)]
  rw [if_neg (by simp : ¬([a, b, c, d, e, f, g] : List Char).length = 8)]
  rw [hmatch]
  rfl

/-- What a successful separator-pattern match guarantees about its three
captures. -/
theorem matchSlashed_some_facts {cs mm dd yy : List Char}
    (h : matchSlashed cs = some (mm, dd, yy)) :
    (∀ c ∈ mm, c.isDigit = true) ∧ 1 ≤ mm.length ∧ mm.length ≤ 2 ∧
    (∀ c ∈ dd, c.isDigit = true) ∧ 1 ≤ dd.length ∧ dd.length ≤ 2 ∧
    (∀ c ∈ yy, c.isDigit = true) ∧ 2 ≤ yy.length ∧ yy.length ≤ 4 := by
  unfold matchSlashed at h
  dsimp only at h
  split at h
  · exact Option.noConfusion h
  · rename_i hg1
    push_neg at hg1
    split at h
    · exact Option.noConfusion h
    · split at h
      · exact Option.noConfusion h
      · split at h
        · exact Option.noConfusion h
        · rename_i hg2
          push_neg at hg2
          split at h
          · exact Option.noConfusion h
          · split at h
            · exact Option.noConfusion h
            · split at h
              · exact Option.noConfusion h
              · rename_i hg3
                push_neg at hg3
                injection h with h2
                rw [Prod.mk.injEq, Prod.mk.injEq] at h2
                obtain ⟨h3, h4, h5⟩ := h2
                subst h3
                subst h4
                subst h5
                refine ⟨fun c hc => List.mem_takeWhile_imp hc, by omega, by omega,
                  fun c hc => List.mem_takeWhile_imp hc, by omega, by omega,
                  fun c hc => List.mem_takeWhile_imp hc, by omega, by omega⟩

/-- Normalization at the character-list level is idempotent. -/
theorem normalizeL_idem (l : List Char) : normalizeL (normalizeL l) = normalizeL l := by
  by_cases h0 : trimL l = []
  · have he : normalizeL l = [] := by
      unfold normalizeL
      dsimp only
      rw [if_pos h0]
    rw [he]
    rfl
  · have hdig : ∀ ch ∈ (trimL l).filter Char.isDigit, ch.isDigit = true :=
      fun ch hch => List.of_mem_filter hch
    by_cases h6 : ((trimL l).filter Char.isDigit).length = 6
    · rw [normalizeL_eq6 h0 h6]
      obtain ⟨a, b, c, d, e, f, hd⟩ := exists_six h6
      rw [hd] at hdig ⊢
      exact normalizeL_canonical6
        (fun ch hch => hdig ch (List.take_subset _ _ hch))
        (fun ch hch => hdig ch (List.drop_subset _ _ (List.take_subset _ _ hch)))
        (fun ch hch => hdig ch (List.drop_subset _ _ (List.take_subset _ _ hch)))
        rfl rfl rfl
    · by_cases h8 : ((trimL l).filter Char.isDigit).length = 8
      · rw [normalizeL_eq8 h0 h6 h8]
        obtain ⟨a, b, c, d, e, f, g, k, hd⟩ := exists_eight h8
        rw [hd] at hdig ⊢
        exact normalizeL_canonical6
          (fun ch hch => hdig ch (List.take_subset _ _ hch))
          (fun ch hch => hdig ch (List.drop_subset _ _ (List.take_subset _ _ hch)))
          (fun ch hch => hdig ch (List.drop_subset _ _ (List.take_subset _ _ hch)))
          rfl rfl rfl
      · cases hm : matchSlashed (trimL l) with
        | none =>
          rw [normalizeL_eqFallback h0 h6 h8 hm]
          have hti := trimL_idem l
          have hres := normalizeL_eqFallback (l := trimL l)
            (by rw [hti]; exact h0) (by rw [hti]; exact h6)
            (by rw [hti]; exact h8) (by rw [hti]; exact hm)
          rw [hres, hti]
        | some res =>
          obtain ⟨mm, dd, yy⟩ := res
          rw [normalizeL_eqSlash h0 h6 h8 hm]
          obtain ⟨hmmD, hmm1, hmm2, hddD, hdd1, hdd2, hyyD, hyy2, hyy4⟩ :=
            matchSlashed_some_facts hm
          have hMD := padStart2_digits hmmD
          have hDD := padStart2_digits hddD
          have hMl := padStart2_length_le hmm2
          have hDl := padStart2_length_le hdd2
          by_cases hy4 : yy.length = 4
          · rw [if_pos hy4]
            have hYD : ∀ c ∈ padStart2 (yy.drop 2), c.isDigit = true :=
              padStart2_digits (fun c hc => hyyD c (List.drop_subset _ _ hc))
            have hYl : (padStart2 (yy.drop 2)).length = 2 := by
              apply padStart2_length_le
              rw [List.length_drop]
              omega
            exact normalizeL_canonical6 hMD hDD hYD hMl hDl hYl
          · rw [if_neg hy4]
            rcases (by omega : yy.length = 2 ∨ yy.length = 3) with h2 | h3
            · exact normalizeL_canonical6 hMD hDD (padStart2_digits hyyD)
                hMl hDl (padStart2_length_le (show yy.length ≤ 2 by omega))
            · rw [padStart2_of_ge (show 2 ≤ yy.length by omega)]
              exact normalizeL_canonical7 hMD hDD hyyD hMl hDl h3

/-- C8: normalize is idempotent on every input string. -/
theorem claim_C8 (x : String) :
    normalizeShortDateDisplay (normalizeShortDateDisplay x)
      = normalizeShortDateDisplay x :=
  congrArg String.mk (normalizeL_idem x.data)
